import Mathlib

/-!
Verification development for the zapatos secure transport layer.

This file gives a shallow embedding of the Noise-IK handshake engine
(`zap/src/crypto/noise.rs`), the symmetric transport session, the framed
transport (`zap/src/network/transport.rs`) and the capability-negotiation
handshake (`zap/src/network/handshake.rs`), together with theorems about
the embedded definitions.

The cryptographic primitives that the Rust code takes from external
libraries (SHA-256, HKDF-SHA256, X25519 and AES-256-GCM from `sha2`,
`hkdf`, `x25519_dalek` and `ring`) are modelled by symbolic executable
functions that preserve exactly the algebraic properties the protocol
code relies on: Diffie-Hellman commutativity (`dh a (pubOf b) = dh b
(pubOf a)`), AEAD seal/open inversion, and the output-length contracts
(32-byte public keys on the wire, 16-byte AEAD tags, length-preserving
in-place encryption).  Everything else is translated line by line from
the source.
-/

set_option maxHeartbeats 1000000
set_option linter.unusedVariables false

namespace Zap

/-- Byte strings are modelled as lists of naturals.  Offsets and lengths
(which the wire format fixes in actual byte counts) are preserved
exactly; individual byte values are unbounded naturals, which is sound
because no claim depends on byte-level overflow. -/
abbrev Bytes := List Nat

/-- Constant `NOISE_ID_SIZE` from `noise.rs`. -/
def NOISE_ID_SIZE : Nat := 32

/-- Constant `MAX_SIZE_NOISE_MSG` from `noise.rs`. -/
def MAX_SIZE_NOISE_MSG : Nat := 65535

/-- Constant `AES_GCM_TAGLEN` from `noise.rs`. -/
def AES_GCM_TAGLEN : Nat := 16

/-- Constant `AES_NONCE_SIZE` from `noise.rs`. -/
def AES_NONCE_SIZE : Nat := 12

/-- The 32-byte protocol-name constant
`b"Noise_IK_25519_AESGCM_SHA256\x00\x00\x00\x00"` from `noise.rs`,
as its ASCII byte values. -/
def PROTOCOL_NAME : Bytes :=
  [78, 111, 105, 115, 101, 95, 73, 75, 95, 50, 53, 53, 49, 57, 95,
   65, 69, 83, 71, 67, 77, 95, 83, 72, 65, 50, 53, 54, 0, 0, 0, 0]

/-- The largest `u64` value, `u64::MAX`. -/
def U64_MAX : Nat := 18446744073709551615

/-- The `NoiseError` enum from `noise.rs`. -/
inductive NoiseError where
  | MsgTooShort
  | Hkdf
  | Encrypt
  | Decrypt
  | WrongPublicKeyReceived
  | SessionClosed
  | PayloadTooLarge
  | ReceivedMsgTooLarge
  | ResponseBufferTooSmall
  | NonceOverflow
deriving DecidableEq, Repr

/-! ### Symbolic models of the external cryptographic primitives -/

/-- Symbolic model of the SHA-256 digest (`hash` in `noise.rs`).  The
digest is only ever used as an opaque transcript value (AEAD associated
data), never parsed, so any function of the input is a sound model. -/
def hash (data : Bytes) : Bytes := [data.sum]

/-- `mix_hash` from `noise.rs`: `h = SHA-256(h ‖ data)`. -/
def mix_hash (h : Bytes) (data : Bytes) : Bytes := hash (h ++ data)

/-- Symbolic model of `hkdf_split` from `noise.rs`: HKDF-SHA256 with
salt `ck` and ikm `dh_output` (empty when absent), expanded to 64 bytes
and split into two 32-byte keys.  The model produces two distinct
opaque keys determined by `(ck, dh_output)`; the Rust `expand` cannot
fail at this output length, so the function is total. -/
def hkdf_split (ck : Bytes) (dh_output : Option Bytes) : Bytes × Bytes :=
  let ikm := dh_output.getD []
  (0 :: ck ++ ikm, 1 :: ck ++ ikm)

/-- `mix_key` from `noise.rs`: returns `(new_ck, k)` where
`(new_ck, k) = hkdf_split ck (some dh_output)`. -/
def mix_key (ck : Bytes) (dh_output : Bytes) : Bytes × Bytes :=
  hkdf_split ck (some dh_output)

/-- Symbolic model of X25519 public-key derivation
(`PublicKey::from(&StaticSecret)`): a secret scalar is a natural, its
public key is a 32-byte wire encoding of that scalar. -/
def pubOf (s : Nat) : Bytes := s :: List.replicate 31 0

/-- Symbolic model of the X25519 Diffie-Hellman operation
(`StaticSecret::diffie_hellman`).  Multiplication of the two scalars
makes the model commutative, `dh a (pubOf b) = dh b (pubOf a)`, exactly
the property of the real group operation the handshake relies on. -/
def dh (s : Nat) (p : Bytes) : Bytes := [s * p.headD 0]

theorem dh_comm (a b : Nat) : dh a (pubOf b) = dh b (pubOf a) := by
  simp [dh, pubOf, Nat.mul_comm]

/-- Symbolic model of the 16-byte AES-256-GCM authentication tag.  The
tag is a deterministic function of key, nonce, associated data and
plaintext; its leading entry is nonzero so that an all-zero trailer
never authenticates. -/
def aeadTag (key nonce aad pt : Bytes) : Bytes :=
  (key.sum + nonce.sum + aad.sum + pt.sum + 1) :: List.replicate 15 0

/-- Symbolic model of `seal_in_place_append_tag`: ciphertext of the
same length as the plaintext (in-place encryption) followed by the
16-byte tag. -/
def aeadSeal (key nonce aad pt : Bytes) : Bytes := pt ++ aeadTag key nonce aad pt

/-- Symbolic model of `open_in_place`: fails on inputs shorter than the
tag, or when the trailing 16 bytes do not authenticate the body under
the given key, nonce and associated data; otherwise returns the body. -/
def aeadOpen (key nonce aad ct : Bytes) : Option Bytes :=
  if ct.length < AES_GCM_TAGLEN then none
  else
    let pt := ct.take (ct.length - AES_GCM_TAGLEN)
    if ct.drop (ct.length - AES_GCM_TAGLEN) = aeadTag key nonce aad pt then some pt
    else none

/-- The all-zero 96-bit nonce used for every handshake AEAD operation. -/
def zeroNonce : Bytes := List.replicate AES_NONCE_SIZE 0

/-- Big-endian encoding of a `u64` into 8 bytes (`u64::to_be_bytes`). -/
def beBytes8 (n : Nat) : Bytes :=
  [n / 2 ^ 56 % 256, n / 2 ^ 48 % 256, n / 2 ^ 40 % 256, n / 2 ^ 32 % 256,
   n / 2 ^ 24 % 256, n / 2 ^ 16 % 256, n / 2 ^ 8 % 256, n % 256]

/-- The 96-bit transport nonce from `noise.rs`: 4 zero bytes followed by
the big-endian 8-byte counter. -/
def transportNonce (n : Nat) : Bytes := List.replicate 4 0 ++ beBytes8 n

@[simp] theorem length_pubOf (s : Nat) : (pubOf s).length = 32 := by
  simp [pubOf]

@[simp] theorem length_aeadTag (key nonce aad pt : Bytes) :
    (aeadTag key nonce aad pt).length = 16 := by
  simp [aeadTag]

@[simp] theorem length_aeadSeal (key nonce aad pt : Bytes) :
    (aeadSeal key nonce aad pt).length = pt.length + 16 := by
  simp [aeadSeal]

/-- AEAD round trip: opening a sealed message with matching key, nonce
and associated data recovers the plaintext. -/
@[simp] theorem aeadOpen_aeadSeal (key nonce aad pt : Bytes) :
    aeadOpen key nonce aad (aeadSeal key nonce aad pt) = some pt := by
  have hlen : (aeadSeal key nonce aad pt).length = pt.length + 16 := by simp
  simp only [aeadOpen, hlen]
  rw [if_neg (by simp only [AES_GCM_TAGLEN]; omega)]
  have htake : (aeadSeal key nonce aad pt).take (pt.length + 16 - AES_GCM_TAGLEN) = pt := by
    simp [AES_GCM_TAGLEN, aeadSeal, List.take_append_of_le_length]
  have hdrop : (aeadSeal key nonce aad pt).drop (pt.length + 16 - AES_GCM_TAGLEN)
      = aeadTag key nonce aad pt := by
    have : pt.length + 16 - AES_GCM_TAGLEN = pt.length := by simp [AES_GCM_TAGLEN]
    rw [this, aeadSeal, List.drop_append_of_le_length (Nat.le_refl _)]
    simp
  rw [htake, hdrop, if_pos rfl]

/-! ### The Noise data structures (`noise.rs`) -/

/-- `NoiseConfig` from `noise.rs`. -/
structure NoiseConfig where
  private_key : Nat
  public_key : Bytes
deriving DecidableEq, Repr

/-- `NoiseConfig::new`: derives the public key from the private key. -/
def NoiseConfig.new (private_key : Nat) : NoiseConfig :=
  ⟨private_key, pubOf private_key⟩

/-- `InitiatorHandshakeState` from `noise.rs`. -/
structure InitiatorHandshakeState where
  h : Bytes
  ck : Bytes
  e : Nat
  rs : Bytes
deriving DecidableEq, Repr

/-- `ResponderHandshakeState` from `noise.rs`. -/
structure ResponderHandshakeState where
  h : Bytes
  ck : Bytes
  rs : Bytes
  re : Bytes
deriving DecidableEq, Repr

/-- `NoiseSession` from `noise.rs`. -/
structure NoiseSession where
  valid : Bool
  remote_public_key : Bytes
  write_key : Bytes
  write_nonce : Nat
  read_key : Bytes
  read_nonce : Nat
deriving DecidableEq, Repr

/-- `NoiseSession::new`: a fresh session is valid and starts both
nonces at 0. -/
def NoiseSession.new (write_key read_key remote_public_key : Bytes) : NoiseSession :=
  ⟨true, remote_public_key, write_key, 0, read_key, 0⟩

/-- `encrypted_len` from `noise.rs`. -/
def encrypted_len (plaintext_len : Nat) : Nat := plaintext_len + AES_GCM_TAGLEN

/-- `handshake_init_msg_len` from `noise.rs`:
`32 + encrypted_len(32) + encrypted_len(payload_len)`. -/
def handshake_init_msg_len (payload_len : Nat) : Nat :=
  32 + encrypted_len 32 + encrypted_len payload_len

/-- `handshake_resp_msg_len` from `noise.rs`:
`32 + encrypted_len(payload_len)`. -/
def handshake_resp_msg_len (payload_len : Nat) : Nat :=
  32 + encrypted_len payload_len

/-! ### The handshake operations (`noise.rs`) -/

/-- `NoiseConfig::initiate_connection`.  The caller-invisible RNG draw
for the ephemeral key is derandomised into the explicit argument
`e_secret`.  The output buffer is allocated at exactly
`handshake_init_msg_len` and the cursor writes fill it exactly, so (as
the source notes) none of the write/seal/HKDF error paths can fire and
the function is total. -/
def initiate_connection (self : NoiseConfig) (e_secret : Nat) (prologue : Bytes)
    (remote_public : Bytes) (payload : Option Bytes) :
    InitiatorHandshakeState × Bytes :=
  let rs := remote_public
  let h1 := mix_hash (mix_hash PROTOCOL_NAME prologue) rs
  -- -> e
  let e_pub := pubOf e_secret
  let h2 := mix_hash h1 e_pub
  -- -> es
  let mk1 := mix_key PROTOCOL_NAME (dh e_secret rs)
  -- -> s
  let enc_s := aeadSeal mk1.2 zeroNonce h2 self.public_key
  let h3 := mix_hash h2 enc_s
  -- -> ss
  let mk2 := mix_key mk1.1 (dh self.private_key rs)
  -- -> payload
  let enc_p := aeadSeal mk2.2 zeroNonce h3 (payload.getD [])
  let h4 := mix_hash h3 enc_p
  (⟨h4, mk2.1, e_secret, rs⟩, e_pub ++ enc_s ++ enc_p)

/-- `NoiseConfig::finalize_connection`. -/
def finalize_connection (self : NoiseConfig) (handshake_state : InitiatorHandshakeState)
    (received_message : Bytes) : Except NoiseError (Bytes × NoiseSession) :=
  if received_message.length > MAX_SIZE_NOISE_MSG then .error .ReceivedMsgTooLarge
  else if received_message.length < 32 then .error .MsgTooShort
  else
    -- <- e
    let re := received_message.take 32
    let h1 := mix_hash handshake_state.h re
    -- <- ee
    let ck1 := (mix_key handshake_state.ck (dh handshake_state.e re)).1
    -- <- se
    let mk := mix_key ck1 (dh self.private_key re)
    -- <- payload
    let in_out := received_message.drop 32
    match aeadOpen mk.2 zeroNonce h1 in_out with
    | none => .error .Decrypt
    | some plaintext =>
      let ks := hkdf_split mk.1 none
      .ok (plaintext, NoiseSession.new ks.1 ks.2 handshake_state.rs)

/-- `NoiseConfig::parse_client_init_message`. -/
def parse_client_init_message (self : NoiseConfig) (prologue : Bytes)
    (received_message : Bytes) :
    Except NoiseError (Bytes × ResponderHandshakeState × Bytes) :=
  if received_message.length > MAX_SIZE_NOISE_MSG then .error .ReceivedMsgTooLarge
  else
    let h1 := mix_hash (mix_hash PROTOCOL_NAME prologue) self.public_key
    -- <- e
    if received_message.length < 32 then .error .MsgTooShort
    else
      let re := received_message.take 32
      let h2 := mix_hash h1 re
      -- <- es
      let mk1 := mix_key PROTOCOL_NAME (dh self.private_key re)
      -- <- s
      if received_message.length < 32 + (32 + AES_GCM_TAGLEN) then .error .MsgTooShort
      else
        let encrypted_rs := (received_message.drop 32).take (32 + AES_GCM_TAGLEN)
        match aeadOpen mk1.2 zeroNonce h2 encrypted_rs with
        | none => .error .Decrypt
        | some rs_bytes =>
          if rs_bytes.length ≠ 32 then .error .Decrypt
          else
            let rs := rs_bytes
            let h3 := mix_hash h2 encrypted_rs
            -- <- ss
            let mk2 := mix_key mk1.1 (dh self.private_key rs)
            -- <- payload
            let enc_payload := received_message.drop (32 + (32 + AES_GCM_TAGLEN))
            match aeadOpen mk2.2 zeroNonce h3 enc_payload with
            | none => .error .Decrypt
            | some received_payload =>
              let h4 := mix_hash h3 enc_payload
              .ok (rs, ⟨h4, mk2.1, rs, re⟩, received_payload)

/-- `NoiseConfig::respond_to_client`.  The RNG draw for the responder
ephemeral key is derandomised into `e_secret`.  The caller-supplied
buffer is modelled by its byte contents; the returned buffer is the
written prefix followed by the untouched remainder of the original. -/
def respond_to_client (self : NoiseConfig) (e_secret : Nat)
    (handshake_state : ResponderHandshakeState) (payload : Option Bytes)
    (response_buffer : Bytes) : Except NoiseError (Bytes × NoiseSession) :=
  let payload_len := (payload.map List.length).getD 0
  let required := handshake_resp_msg_len payload_len
  if response_buffer.length < required then .error .ResponseBufferTooSmall
  else
    -- -> e
    let e_pub := pubOf e_secret
    let h1 := mix_hash handshake_state.h e_pub
    -- -> ee
    let ck1 := (mix_key handshake_state.ck (dh e_secret handshake_state.re)).1
    -- -> se
    let mk := mix_key ck1 (dh e_secret handshake_state.rs)
    -- -> payload
    let enc_p := aeadSeal mk.2 zeroNonce h1 (payload.getD [])
    let ks := hkdf_split mk.1 none
    -- Responder assignment is the mirror image: write = k2, read = k1.
    .ok (e_pub ++ enc_p ++ response_buffer.drop required,
         NoiseSession.new ks.2 ks.1 handshake_state.rs)

/-! ### The symmetric transport session operations (`noise.rs`)

`write_message_in_place` and `read_message_in_place` mutate the session
and the caller's buffer in place; the embedding passes the session and
buffer explicitly and returns both, alongside the `Result`.  The ghost
field `aeadOps` records the (key, nonce) pair of every AEAD operation
the call performed, making "performs cryptographic work" and "nonce
reuse" directly observable. -/

deriving instance DecidableEq for Except

/-- Ghost record of one AEAD invocation: the key and nonce it used. -/
structure AeadOp where
  key : Bytes
  nonce : Bytes
deriving DecidableEq, Repr

/-- Result of one in-place session operation: the session and buffer
after the call, the ghost trace of AEAD operations performed, and the
returned `Result`. -/
structure SessionIOResult where
  session : NoiseSession
  buffer : Bytes
  aeadOps : List AeadOp
  result : Except NoiseError Bytes
deriving DecidableEq, Repr

/-- `NoiseSession::write_message_in_place`.  On success the returned
value is the 16-byte tag and the buffer holds the ciphertext; the write
nonce is advanced by `checked_add(1)`, which fails (without modifying
the session) exactly at `u64::MAX`. -/
def write_message_in_place (s : NoiseSession) (message : Bytes) : SessionIOResult :=
  if ¬ s.valid then ⟨s, message, [], .error .SessionClosed⟩
  else if message.length > MAX_SIZE_NOISE_MSG - AES_GCM_TAGLEN then
    ⟨s, message, [], .error .PayloadTooLarge⟩
  else
    -- seal_in_place_separate_tag: in-place ciphertext plus separate tag
    if s.write_nonce = U64_MAX then
      ⟨s, message, [⟨s.write_key, transportNonce s.write_nonce⟩], .error .NonceOverflow⟩
    else
      ⟨{ s with write_nonce := s.write_nonce + 1 }, message,
       [⟨s.write_key, transportNonce s.write_nonce⟩],
       .ok (aeadTag s.write_key (transportNonce s.write_nonce) [] message)⟩

/-- `NoiseSession::read_message_in_place`.  Size violations and AEAD
failures permanently invalidate the session before returning; on
success the returned value is the plaintext prefix of the buffer. -/
def read_message_in_place (s : NoiseSession) (message : Bytes) : SessionIOResult :=
  if ¬ s.valid then ⟨s, message, [], .error .SessionClosed⟩
  else if message.length > MAX_SIZE_NOISE_MSG then
    ⟨{ s with valid := false }, message, [], .error .ReceivedMsgTooLarge⟩
  else if message.length < AES_GCM_TAGLEN then
    ⟨{ s with valid := false }, message, [], .error .ResponseBufferTooSmall⟩
  else
    match aeadOpen s.read_key (transportNonce s.read_nonce) [] message with
    | none =>
      ⟨{ s with valid := false }, message,
       [⟨s.read_key, transportNonce s.read_nonce⟩], .error .Decrypt⟩
    | some _ =>
      if s.read_nonce = U64_MAX then
        ⟨s, message, [⟨s.read_key, transportNonce s.read_nonce⟩], .error .NonceOverflow⟩
      else
        ⟨{ s with read_nonce := s.read_nonce + 1 }, message,
         [⟨s.read_key, transportNonce s.read_nonce⟩],
         .ok (message.take (message.length - AES_GCM_TAGLEN))⟩

/-- One call against a session: either a write or a read with the given
buffer contents. -/
inductive NoiseOp where
  | writeOp (m : Bytes)
  | readOp (m : Bytes)
deriving DecidableEq, Repr

/-- Apply one session call. -/
def applyOp (s : NoiseSession) (op : NoiseOp) : SessionIOResult :=
  match op with
  | .writeOp m => write_message_in_place s m
  | .readOp m => read_message_in_place s m

/-- The session state after a sequence of calls. -/
def runOps (s : NoiseSession) (ops : List NoiseOp) : NoiseSession :=
  ops.foldl (fun st op => (applyOp st op).session) s

/-- The session state after a sequence of writes. -/
def writeAll (s : NoiseSession) (msgs : List Bytes) : NoiseSession :=
  msgs.foldl (fun st m => (write_message_in_place st m).session) s

/-- Whether every write in the sequence returned `Ok`. -/
def writeAllOk : NoiseSession → List Bytes → Bool
  | _, [] => true
  | s, m :: rest =>
    match (write_message_in_place s m).result with
    | .ok _ => writeAllOk (write_message_in_place s m).session rest
    | .error _ => false

/-! ### The framed transport (`transport.rs`) -/

/-- Errors of `NoiseStream::read_message` (the source uses `anyhow`;
the embedding types the three distinct failure paths). -/
inductive ReadMessageError where
  | ioEof
  | messageTooLarge
  | decryptFailed (e : NoiseError)
deriving DecidableEq, Repr

/-- Big-endian `u32` decoding of the 4-byte length prefix
(`u32::from_be_bytes`). -/
def u32_from_be (b : Bytes) : Nat :=
  b.getD 0 0 * 2 ^ 24 + b.getD 1 0 * 2 ^ 16 + b.getD 2 0 * 2 ^ 8 + b.getD 3 0

/-- Result of `NoiseStream::read_message`: the `Result`, the session
after the call, and the ghost count of bytes consumed from the inner
stream. -/
structure ReadMessageResult where
  result : Except ReadMessageError Bytes
  session : NoiseSession
  consumed : Nat
deriving DecidableEq, Repr

/-- `NoiseStream::read_message`.  The inner byte stream is modelled by
the list of bytes it will deliver; `consumed` counts how many of them
the call read. -/
def NoiseStream.read_message (session : NoiseSession) (input : Bytes) : ReadMessageResult :=
  if input.length < 4 then ⟨.error .ioEof, session, 0⟩
  else if u32_from_be (input.take 4) > MAX_SIZE_NOISE_MSG then
    ⟨.error .messageTooLarge, session, 4⟩
  else if input.length < 4 + u32_from_be (input.take 4) then ⟨.error .ioEof, session, 4⟩
  else
    match (read_message_in_place session
        ((input.drop 4).take (u32_from_be (input.take 4)))).result with
    | .ok plaintext =>
      ⟨.ok plaintext,
       (read_message_in_place session
         ((input.drop 4).take (u32_from_be (input.take 4)))).session,
       4 + u32_from_be (input.take 4)⟩
    | .error e =>
      ⟨.error (.decryptFailed e),
       (read_message_in_place session
         ((input.drop 4).take (u32_from_be (input.take 4)))).session,
       4 + u32_from_be (input.take 4)⟩

/-- The `NoiseStream` state for the generic byte-stream interface:
the inner stream, the session, and the internal read buffer with its
cursor. -/
structure NoiseStreamState where
  inner : Bytes
  session : NoiseSession
  read_buffer : Bytes
  read_pos : Nat
deriving DecidableEq, Repr

/-- `Poll<io::Result<t>>` for the two poll implementations: both always
return `Ready`, so the model needs only the `Ok` payload. -/
inductive PollResult (α : Type) where
  | ready (v : α)
deriving DecidableEq, Repr

/-- `AsyncWrite::poll_write` for `NoiseStream`: returns
`Ready(Ok(buf.len()))` and touches nothing. -/
def NoiseStream.poll_write (s : NoiseStreamState) (buf : Bytes) :
    NoiseStreamState × PollResult Nat :=
  (s, .ready buf.length)

/-- `AsyncRead::poll_read` for `NoiseStream`: serves bytes from the
internal buffer when it is non-drained, otherwise returns `Ready(Ok 0)`
(the placeholder path) without touching the inner stream.  The returned
bytes are the ones copied into the caller's buffer of size `bufLen`. -/
def NoiseStream.poll_read (s : NoiseStreamState) (bufLen : Nat) :
    NoiseStreamState × PollResult Bytes :=
  if s.read_pos < s.read_buffer.length then
    let available := s.read_buffer.length - s.read_pos
    let to_copy := min available bufLen
    ({ s with read_pos := s.read_pos + to_copy },
     .ready ((s.read_buffer.drop s.read_pos).take to_copy))
  else
    (s, .ready [])

/-! ### The negotiation handshake (`handshake.rs`) -/

/-- The `ProtocolId` enum from `handshake.rs`, with its fixed `repr(u8)`
ordinals. -/
inductive ProtocolId where
  | ConsensusRpcBcs
  | ConsensusDirectSendBcs
  | MempoolDirectSend
  | StateSyncDirectSend
  | DiscoveryDirectSend
  | HealthCheckerRpc
  | ConsensusDirectSendJson
  | ConsensusRpcJson
  | StorageServiceRpc
  | MempoolRpc
  | PeerMonitoringServiceRpc
  | ConsensusRpcCompressed
  | ConsensusDirectSendCompressed
  | NetbenchDirectSend
  | NetbenchRpc
  | DKGDirectSendCompressed
  | DKGDirectSendBcs
  | DKGDirectSendJson
  | DKGRpcCompressed
  | DKGRpcBcs
  | DKGRpcJson
  | JWKConsensusDirectSendCompressed
  | JWKConsensusDirectSendBcs
  | JWKConsensusDirectSendJson
  | JWKConsensusRpcCompressed
  | JWKConsensusRpcBcs
  | JWKConsensusRpcJson
  | ConsensusObserver
  | ConsensusObserverRpc
deriving DecidableEq, Repr, Fintype

/-- The `repr(u8)` discriminant of each `ProtocolId` (`protocol as usize`). -/
def ProtocolId.toIdx : ProtocolId → Nat
  | .ConsensusRpcBcs => 0
  | .ConsensusDirectSendBcs => 1
  | .MempoolDirectSend => 2
  | .StateSyncDirectSend => 3
  | .DiscoveryDirectSend => 4
  | .HealthCheckerRpc => 5
  | .ConsensusDirectSendJson => 6
  | .ConsensusRpcJson => 7
  | .StorageServiceRpc => 8
  | .MempoolRpc => 9
  | .PeerMonitoringServiceRpc => 10
  | .ConsensusRpcCompressed => 11
  | .ConsensusDirectSendCompressed => 12
  | .NetbenchDirectSend => 13
  | .NetbenchRpc => 14
  | .DKGDirectSendCompressed => 15
  | .DKGDirectSendBcs => 16
  | .DKGDirectSendJson => 17
  | .DKGRpcCompressed => 18
  | .DKGRpcBcs => 19
  | .DKGRpcJson => 20
  | .JWKConsensusDirectSendCompressed => 21
  | .JWKConsensusDirectSendBcs => 22
  | .JWKConsensusDirectSendJson => 23
  | .JWKConsensusRpcCompressed => 24
  | .JWKConsensusRpcBcs => 25
  | .JWKConsensusRpcJson => 26
  | .ConsensusObserver => 27
  | .ConsensusObserverRpc => 28

/-- `ProtocolIdSet` from `handshake.rs`: a newtype around a growable
byte vector used as a bitset. -/
structure ProtocolIdSet where
  vec : Bytes
deriving DecidableEq, Repr

/-- `ProtocolIdSet::empty`. -/
def ProtocolIdSet.empty : ProtocolIdSet := ⟨[]⟩

/-- The `self.0.resize(byte_idx + 1, 0)` step of `ProtocolIdSet::insert`
(applied only when `byte_idx >= self.0.len()`): extend the vector with
zero bytes so that index `byte_idx` exists. -/
def padVec (v : Bytes) (byte_idx : Nat) : Bytes :=
  if v.length ≤ byte_idx then v ++ List.replicate (byte_idx + 1 - v.length) 0 else v

/-- `ProtocolIdSet::insert`: resize the vector lazily to cover byte
`idx / 8`, then OR bit `idx % 8` into that byte. -/
def ProtocolIdSet.insert (s : ProtocolIdSet) (protocol : ProtocolId) : ProtocolIdSet :=
  ⟨(padVec s.vec (protocol.toIdx / 8)).set (protocol.toIdx / 8)
    ((padVec s.vec (protocol.toIdx / 8)).getD (protocol.toIdx / 8) 0
      ||| (1 <<< (protocol.toIdx % 8)))⟩

/-- `ProtocolIdSet::contains`. -/
def ProtocolIdSet.contains (s : ProtocolIdSet) (protocol : ProtocolId) : Bool :=
  if protocol.toIdx / 8 < s.vec.length then
    (s.vec.getD (protocol.toIdx / 8) 0) &&& (1 <<< (protocol.toIdx % 8)) ≠ 0
  else false

/-- `ProtocolIdSet::intersect`: bytewise AND over the shorter of the
two vectors. -/
def ProtocolIdSet.intersect (s other : ProtocolIdSet) : ProtocolIdSet :=
  ⟨List.zipWith (fun x y => x &&& y) s.vec other.vec⟩

/-- `ProtocolIdSet::is_empty`: true iff all bytes are zero. -/
def ProtocolIdSet.is_empty (s : ProtocolIdSet) : Bool :=
  s.vec.all (fun b => b == 0)

/-- `MessagingProtocolVersion` from `handshake.rs` (a single variant). -/
inductive MessagingProtocolVersion where
  | V1
deriving DecidableEq, Repr

/-- `ChainId` from `handshake.rs` (a `u8` newtype). -/
structure ChainId where
  id : Nat
deriving DecidableEq, Repr

/-- `NetworkId` from `handshake.rs`. -/
inductive NetworkId where
  | Validator
  | Public
  | Vfn
deriving DecidableEq, Repr

/-- `HandshakeMsg` from `handshake.rs`.  The `BTreeMap` of supported
protocols is modelled as its (ascending) association list. -/
structure HandshakeMsg where
  supported_protocols : List (MessagingProtocolVersion × ProtocolIdSet)
  chain_id : ChainId
  network_id : NetworkId
deriving DecidableEq, Repr

/-- `BTreeMap::get` on the association-list model. -/
def mapGet (m : List (MessagingProtocolVersion × ProtocolIdSet))
    (v : MessagingProtocolVersion) : Option ProtocolIdSet :=
  (m.find? (fun kv => kv.1 = v)).map (fun kv => kv.2)

/-- The typed negotiation errors (the source uses `anyhow` strings). -/
inductive HandshakeError where
  | invalidChainId
  | invalidNetworkId
  | noCommonProtocols
deriving DecidableEq, Repr

/-- The version-iteration loop of `HandshakeMsg::perform_handshake`,
over the local entries already reversed into highest-to-lowest order:
the first version also present on the remote side whose protocol-set
intersection is non-empty wins. -/
def perform_handshake_go (other : HandshakeMsg) :
    List (MessagingProtocolVersion × ProtocolIdSet) →
    Except HandshakeError (MessagingProtocolVersion × ProtocolIdSet)
  | [] => .error .noCommonProtocols
  | (v, ours) :: rest =>
    match mapGet other.supported_protocols v with
    | some theirs =>
      if (ours.intersect theirs).is_empty then perform_handshake_go other rest
      else .ok (v, ours.intersect theirs)
    | none => perform_handshake_go other rest

/-- `HandshakeMsg::perform_handshake`. -/
def perform_handshake (self other : HandshakeMsg) :
    Except HandshakeError (MessagingProtocolVersion × ProtocolIdSet) :=
  if self.chain_id ≠ other.chain_id then .error .invalidChainId
  else if self.network_id ≠ other.network_id then .error .invalidNetworkId
  else perform_handshake_go other self.supported_protocols.reverse

/-! ### Session-operation lemmas -/

/-- A write on an invalid session is rejected outright. -/
lemma write_invalid (s : NoiseSession) (m : Bytes) (h : s.valid = false) :
    write_message_in_place s m = ⟨s, m, [], .error .SessionClosed⟩ := by
  simp [write_message_in_place, h]

/-- A read on an invalid session is rejected outright. -/
lemma read_invalid (s : NoiseSession) (m : Bytes) (h : s.valid = false) :
    read_message_in_place s m = ⟨s, m, [], .error .SessionClosed⟩ := by
  simp [read_message_in_place, h]

/-- Characterisation of a successful write. -/
lemma write_ok_char (s : NoiseSession) (m : Bytes) (hv : s.valid = true)
    (hlen : m.length ≤ MAX_SIZE_NOISE_MSG - AES_GCM_TAGLEN) (hn : s.write_nonce ≠ U64_MAX) :
    write_message_in_place s m =
      ⟨{ s with write_nonce := s.write_nonce + 1 }, m,
       [⟨s.write_key, transportNonce s.write_nonce⟩],
       .ok (aeadTag s.write_key (transportNonce s.write_nonce) [] m)⟩ := by
  unfold write_message_in_place
  rw [if_neg (by simp [hv]), if_neg (by omega), if_neg hn]

/-- A successful write advances the write nonce by exactly 1. -/
lemma write_ok_nonce (s : NoiseSession) (m t : Bytes)
    (h : (write_message_in_place s m).result = .ok t) :
    (write_message_in_place s m).session.write_nonce = s.write_nonce + 1 := by
  unfold write_message_in_place at *
  split_ifs at * <;> simp_all

/-- Nonce bookkeeping for a run of writes: if they all succeed, the
write nonce advances by the number of messages. -/
lemma writeAll_nonce (msgs : List Bytes) : ∀ s : NoiseSession,
    writeAllOk s msgs = true →
    (writeAll s msgs).write_nonce = s.write_nonce + msgs.length := by
  induction msgs with
  | nil => intro s h; simp [writeAll]
  | cons m rest ih =>
    intro s h
    unfold writeAllOk at h
    cases hr : (write_message_in_place s m).result with
    | error e => rw [hr] at h; simp at h
    | ok t =>
      rw [hr] at h
      have h1 := ih (write_message_in_place s m).session h
      have h2 := write_ok_nonce s m t hr
      have : writeAll s (m :: rest) = writeAll (write_message_in_place s m).session rest := rfl
      rw [this, h1, h2, List.length_cons]
      omega

/-- C3: a fresh `NoiseSession` starts with `write_nonce = 0`; every
successful `write_message_in_place` increments the write nonce by
exactly 1, so after N successful writes it equals exactly N; and a
write attempted at `write_nonce = u64::MAX` returns `NonceOverflow`
and leaves the nonce at `u64::MAX` instead of wrapping it to 0. -/
theorem nonce_monotonicity :
    (∀ wk rk rpk : Bytes, (NoiseSession.new wk rk rpk).write_nonce = 0) ∧
    (∀ (s : NoiseSession) (m t : Bytes), (write_message_in_place s m).result = .ok t →
       (write_message_in_place s m).session.write_nonce = s.write_nonce + 1) ∧
    (∀ (wk rk rpk : Bytes) (msgs : List Bytes),
       writeAllOk (NoiseSession.new wk rk rpk) msgs = true →
       (writeAll (NoiseSession.new wk rk rpk) msgs).write_nonce = msgs.length) ∧
    (∀ (s : NoiseSession) (m : Bytes), s.valid = true →
       m.length ≤ MAX_SIZE_NOISE_MSG - AES_GCM_TAGLEN → s.write_nonce = U64_MAX →
       (write_message_in_place s m).result = .error .NonceOverflow ∧
       (write_message_in_place s m).session.write_nonce = U64_MAX) := by
  refine ⟨fun wk rk rpk => rfl, write_ok_nonce, ?_, ?_⟩
  · intro wk rk rpk msgs h
    have := writeAll_nonce msgs (NoiseSession.new wk rk rpk) h
    simpa [NoiseSession.new] using this
  · intro s m hv hlen hn
    unfold write_message_in_place
    rw [if_neg (by simp [hv]), if_neg (by omega), if_pos hn]
    exact ⟨rfl, hn ▸ rfl⟩

/-- Witness for C3 at concrete inputs: two successful writes on a fresh
session leave the nonce at 2, and a write at the maximal nonce returns
`NonceOverflow`. -/
theorem nonce_monotonicity_witness :
    writeAllOk (NoiseSession.new [1] [2] (pubOf 3)) [[5], [6]] = true ∧
    (writeAll (NoiseSession.new [1] [2] (pubOf 3)) [[5], [6]]).write_nonce = 2 ∧
    (write_message_in_place (⟨true, pubOf 9, [3], U64_MAX, [4], 0⟩ : NoiseSession) [42]).result
      = .error .NonceOverflow := by
  refine ⟨by decide, ?_, ?_⟩
  · have := nonce_monotonicity.2.2.1 [1] [2] (pubOf 3) [[5], [6]] (by decide)
    simpa using this
  · exact (nonce_monotonicity.2.2.2 (⟨true, pubOf 9, [3], U64_MAX, [4], 0⟩ : NoiseSession)
      [42] (by decide) (by decide) (by decide)).1

/-- Any call on an invalid session: `SessionClosed`, no AEAD work, no
state change. -/
lemma applyOp_invalid (s : NoiseSession) (op : NoiseOp) (h : s.valid = false) :
    applyOp s op = ⟨s, match op with | .writeOp m => m | .readOp m => m, [],
      .error .SessionClosed⟩ := by
  cases op with
  | writeOp m => simpa [applyOp] using write_invalid s m h
  | readOp m => simpa [applyOp] using read_invalid s m h

/-- An invalid session stays unchanged under any sequence of calls. -/
lemma runOps_invalid (s : NoiseSession) (h : s.valid = false) (ops : List NoiseOp) :
    runOps s ops = s := by
  induction ops with
  | nil => rfl
  | cons op rest ih =>
    have : runOps s (op :: rest) = runOps (applyOp s op).session rest := rfl
    rw [this, applyOp_invalid s op h]
    exact ih

/-- A read that fails with a cryptographic error (AEAD mismatch or a
read-side size violation) leaves the session invalid. -/
lemma read_crypto_fail_invalid (s : NoiseSession) (m : Bytes)
    (h : (read_message_in_place s m).result = .error .Decrypt ∨
         (read_message_in_place s m).result = .error .ReceivedMsgTooLarge ∨
         (read_message_in_place s m).result = .error .ResponseBufferTooSmall) :
    (read_message_in_place s m).session.valid = false := by
  by_cases hv : s.valid = true
  · unfold read_message_in_place at h ⊢
    rw [if_neg (by simp [hv])] at h ⊢
    by_cases hlen : m.length > MAX_SIZE_NOISE_MSG
    · rw [if_pos hlen]
    · rw [if_neg hlen] at h ⊢
      by_cases hshort : m.length < AES_GCM_TAGLEN
      · rw [if_pos hshort]
      · rw [if_neg hshort] at h ⊢
        cases haead : aeadOpen s.read_key (transportNonce s.read_nonce) [] m with
        | none => rfl
        | some pt =>
          rw [haead] at h
          split_ifs at h <;> simp_all
  · unfold read_message_in_place at h
    rw [if_pos (by simp [hv])] at h
    simp at h

/-- C2: session invalidation is sticky.  Once a read fails with an AEAD
tag mismatch (`Decrypt`) or a read-side size violation
(`ReceivedMsgTooLarge`, `ResponseBufferTooSmall`), every subsequent
read or write — after any interleaving of further calls — returns
`SessionClosed`, performs no AEAD operation, and leaves the session
unchanged.  (Writes cannot fail with a cryptographic error: their only
errors are `SessionClosed`, `PayloadTooLarge` and `NonceOverflow`.) -/
theorem session_invalidation_sticky (s : NoiseSession) (m : Bytes)
    (h : (read_message_in_place s m).result = .error .Decrypt ∨
         (read_message_in_place s m).result = .error .ReceivedMsgTooLarge ∨
         (read_message_in_place s m).result = .error .ResponseBufferTooSmall) :
    ∀ (ops : List NoiseOp) (op : NoiseOp),
      (applyOp (runOps (read_message_in_place s m).session ops) op).result
        = .error .SessionClosed ∧
      (applyOp (runOps (read_message_in_place s m).session ops) op).aeadOps = [] ∧
      (applyOp (runOps (read_message_in_place s m).session ops) op).session
        = (read_message_in_place s m).session := by
  intro ops op
  have hinv := read_crypto_fail_invalid s m h
  rw [runOps_invalid _ hinv ops, applyOp_invalid _ op hinv]
  exact ⟨rfl, rfl, rfl⟩

/-- Witness for C2: a concrete read whose tag fails to authenticate
invalidates the session; a later write then a later read both return
`SessionClosed` with no AEAD work. -/
theorem session_invalidation_sticky_witness :
    ((read_message_in_place (NoiseSession.new [1] [2] (pubOf 7)) (List.replicate 16 0)).result
       = .error .Decrypt ∨
     (read_message_in_place (NoiseSession.new [1] [2] (pubOf 7)) (List.replicate 16 0)).result
       = .error .ReceivedMsgTooLarge ∨
     (read_message_in_place (NoiseSession.new [1] [2] (pubOf 7)) (List.replicate 16 0)).result
       = .error .ResponseBufferTooSmall) ∧
    (applyOp (runOps (read_message_in_place (NoiseSession.new [1] [2] (pubOf 7))
        (List.replicate 16 0)).session [.writeOp [1]]) (.readOp [2])).result
      = .error .SessionClosed := by
  refine ⟨by decide, ?_⟩
  exact (session_invalidation_sticky (NoiseSession.new [1] [2] (pubOf 7))
    (List.replicate 16 0) (by decide) [.writeOp [1]] (.readOp [2])).1

/-- C4: exhibit of the nonce-reuse slip at overflow.  At
`write_nonce = u64::MAX` a write seals with nonce `u64::MAX`, returns
`NonceOverflow`, but leaves the session valid with the nonce unchanged;
the next write call on the same session performs another AEAD seal
under the same key with the already-used nonce `u64::MAX`, contradicting
the requirement that nonces are never reused for the same key. -/
theorem nonce_overflow_reuse_bug :
    (write_message_in_place (⟨true, pubOf 9, [3], U64_MAX, [4], 0⟩ : NoiseSession) [42]).result
      = .error .NonceOverflow ∧
    (write_message_in_place (⟨true, pubOf 9, [3], U64_MAX, [4], 0⟩ : NoiseSession) [42]).session
      = (⟨true, pubOf 9, [3], U64_MAX, [4], 0⟩ : NoiseSession) ∧
    (write_message_in_place (⟨true, pubOf 9, [3], U64_MAX, [4], 0⟩ : NoiseSession) [42]).aeadOps
      = [⟨[3], transportNonce U64_MAX⟩] ∧
    (write_message_in_place
        (write_message_in_place (⟨true, pubOf 9, [3], U64_MAX, [4], 0⟩ : NoiseSession) [42]).session
        [43]).aeadOps
      = [⟨[3], transportNonce U64_MAX⟩] := by
  decide

/-- C9: the generic byte-stream interface is a stub.  `poll_write`
always answers `Ready(Ok(buf.len()))` while changing nothing (no bytes
encrypted or transmitted), and `poll_read` on a drained internal buffer
answers `Ready(Ok 0)` (no bytes) without touching the inner stream or
the session. -/
theorem poll_byte_interface_stub :
    (∀ (s : NoiseStreamState) (buf : Bytes),
       NoiseStream.poll_write s buf = (s, .ready buf.length)) ∧
    (∀ (s : NoiseStreamState) (bufLen : Nat),
       s.read_buffer.length ≤ s.read_pos →
       NoiseStream.poll_read s bufLen = (s, .ready [])) := by
  refine ⟨fun s buf => rfl, fun s bufLen h => ?_⟩
  unfold NoiseStream.poll_read
  rw [if_neg (by omega)]

/-- Witness for C9 at a concrete drained stream. -/
theorem poll_byte_interface_stub_witness :
    NoiseStream.poll_read ⟨[9, 9], NoiseSession.new [1] [2] [], [5, 6], 2⟩ 4
      = (⟨[9, 9], NoiseSession.new [1] [2] [], [5, 6], 2⟩, .ready []) :=
  poll_byte_interface_stub.2 ⟨[9, 9], NoiseSession.new [1] [2] [], [5, 6], 2⟩ 4 (by decide)

/-! ### Framed-transport and size-formula theorems -/

/-- C6: the framed reader reads exactly 4 big-endian length bytes;
whenever the declared length exceeds `MAX_SIZE_NOISE_MSG` it rejects
having consumed only those 4 bytes (no payload allocated or read);
otherwise it consumes exactly the declared number of payload bytes and
hands them to the session for decryption. -/
theorem framed_read_length_bound (sess : NoiseSession) (input : Bytes)
    (h4 : 4 ≤ input.length) :
    (MAX_SIZE_NOISE_MSG < u32_from_be (input.take 4) →
       NoiseStream.read_message sess input = ⟨.error .messageTooLarge, sess, 4⟩) ∧
    (u32_from_be (input.take 4) ≤ MAX_SIZE_NOISE_MSG →
     4 + u32_from_be (input.take 4) ≤ input.length →
       (NoiseStream.read_message sess input).consumed = 4 + u32_from_be (input.take 4) ∧
       (NoiseStream.read_message sess input).session =
         (read_message_in_place sess
           ((input.drop 4).take (u32_from_be (input.take 4)))).session ∧
       (NoiseStream.read_message sess input).result =
         (match (read_message_in_place sess
             ((input.drop 4).take (u32_from_be (input.take 4)))).result with
          | .ok pt => .ok pt
          | .error e => .error (.decryptFailed e))) := by
  constructor
  · intro hbig
    unfold NoiseStream.read_message
    rw [if_neg (by omega), if_pos (by omega)]
  · intro hsmall hlen
    unfold NoiseStream.read_message
    rw [if_neg (by omega), if_neg (by omega), if_neg (by omega)]
    cases hr : (read_message_in_place sess ((input.drop 4).take (u32_from_be (input.take 4)))).result with
    | ok pt => exact ⟨rfl, rfl, rfl⟩
    | error e => exact ⟨rfl, rfl, rfl⟩

/-- Witness for C6: a frame whose 4-byte prefix declares 10,000,000
bytes (`0x00989680`) is rejected after consuming exactly the 4 length
bytes. -/
theorem framed_read_length_bound_witness :
    MAX_SIZE_NOISE_MSG < u32_from_be ([0, 152, 150, 128, 1, 2].take 4) ∧
    NoiseStream.read_message (NoiseSession.new [1] [2] []) [0, 152, 150, 128, 1, 2]
      = ⟨.error .messageTooLarge, NoiseSession.new [1] [2] [], 4⟩ :=
  ⟨by decide,
   (framed_read_length_bound (NoiseSession.new [1] [2] []) [0, 152, 150, 128, 1, 2]
     (by decide)).1 (by decide)⟩

/-- The Rust `payload.map(<[u8]>::len).unwrap_or(0)` equals the length
of `payload.unwrap_or(&[])`. -/
lemma payload_len_getD (payload : Option Bytes) :
    (payload.map List.length).getD 0 = (payload.getD []).length := by
  cases payload <;> simp

/-- Length of the first handshake message produced by
`initiate_connection` (for a configuration built by `NoiseConfig::new`,
whose static public key is 32 bytes as on the wire). -/
lemma length_init_msg (a e : Nat) (prologue remote : Bytes)
    (payload : Option Bytes) :
    ((initiate_connection (NoiseConfig.new a) e prologue remote payload).2).length
      = handshake_init_msg_len ((payload.map List.length).getD 0) := by
  simp [initiate_connection, NoiseConfig.new, handshake_init_msg_len, encrypted_len,
    payload_len_getD, AES_GCM_TAGLEN, pubOf]
  omega

/-- Characterisation of `respond_to_client` on an adequately sized
buffer. -/
lemma respond_ok_char (self : NoiseConfig) (e : Nat) (st : ResponderHandshakeState)
    (payload : Option Bytes) (buffer : Bytes)
    (hbuf : handshake_resp_msg_len ((payload.map List.length).getD 0) ≤ buffer.length) :
    respond_to_client self e st payload buffer =
      .ok (pubOf e ++ aeadSeal (mix_key ((mix_key st.ck (dh e st.re)).1) (dh e st.rs)).2
             zeroNonce (mix_hash st.h (pubOf e)) (payload.getD [])
           ++ buffer.drop (handshake_resp_msg_len ((payload.map List.length).getD 0)),
           NoiseSession.new
             (hkdf_split (mix_key ((mix_key st.ck (dh e st.re)).1) (dh e st.rs)).1 none).2
             (hkdf_split (mix_key ((mix_key st.ck (dh e st.re)).1) (dh e st.rs)).1 none).1
             st.rs) := by
  unfold respond_to_client
  rw [if_neg (by omega)]

/-- C7: the first handshake message is exactly
`32 + (32+16) + (payload_len+16)` bytes; the responder's message is
exactly `32 + (payload_len+16)` bytes written at the front of the
caller's buffer (the remainder untouched); and an undersized buffer
yields `ResponseBufferTooSmall` with nothing written, not a partial
write. -/
theorem handshake_message_sizes :
    (∀ (a e : Nat) (prologue remote : Bytes) (payload : Option Bytes),
       ((initiate_connection (NoiseConfig.new a) e prologue remote payload).2).length
         = 32 + (32 + 16) + ((payload.map List.length).getD 0 + 16)) ∧
    (∀ (self : NoiseConfig) (e : Nat) (st : ResponderHandshakeState)
       (payload : Option Bytes) (buffer : Bytes),
       buffer.length < 32 + ((payload.map List.length).getD 0 + 16) →
       respond_to_client self e st payload buffer = .error .ResponseBufferTooSmall) ∧
    (∀ (self : NoiseConfig) (e : Nat) (st : ResponderHandshakeState)
       (payload : Option Bytes) (buffer : Bytes),
       32 + ((payload.map List.length).getD 0 + 16) ≤ buffer.length →
       ∃ msg sess, respond_to_client self e st payload buffer
           = .ok (msg ++ buffer.drop (32 + ((payload.map List.length).getD 0 + 16)), sess) ∧
         msg.length = 32 + ((payload.map List.length).getD 0 + 16)) := by
  have hresp : ∀ l : Nat, handshake_resp_msg_len l = 32 + (l + 16) := by
    intro l; simp [handshake_resp_msg_len, encrypted_len, AES_GCM_TAGLEN]
  refine ⟨?_, ?_, ?_⟩
  · intro a e prologue remote payload
    have := length_init_msg a e prologue remote payload
    simpa [handshake_init_msg_len, encrypted_len, AES_GCM_TAGLEN] using this
  · intro self e st payload buffer hbuf
    unfold respond_to_client
    rw [if_pos (by rw [hresp]; omega)]
  · intro self e st payload buffer hbuf
    refine ⟨pubOf e ++ aeadSeal (mix_key ((mix_key st.ck (dh e st.re)).1) (dh e st.rs)).2
        zeroNonce (mix_hash st.h (pubOf e)) (payload.getD []),
      NoiseSession.new
        (hkdf_split (mix_key ((mix_key st.ck (dh e st.re)).1) (dh e st.rs)).1 none).2
        (hkdf_split (mix_key ((mix_key st.ck (dh e st.re)).1) (dh e st.rs)).1 none).1
        st.rs, ?_, ?_⟩
    · have := respond_ok_char self e st payload buffer (by rw [hresp]; omega)
      rw [this, hresp]
    · simp [payload_len_getD]

/-- Witness for C7 at concrete inputs: an empty-payload response needs
48 bytes, a 47-byte buffer is rejected, a 48-byte buffer receives
exactly 48 bytes. -/
theorem handshake_message_sizes_witness :
    respond_to_client (NoiseConfig.new 1) 2 ⟨[5], [6], pubOf 3, pubOf 4⟩ none
        (List.replicate 47 0) = .error .ResponseBufferTooSmall ∧
    (∃ msg sess, respond_to_client (NoiseConfig.new 1) 2 ⟨[5], [6], pubOf 3, pubOf 4⟩ none
        (List.replicate 48 0)
        = .ok (msg ++ (List.replicate 48 0).drop (32 + (0 + 16)), sess) ∧
      msg.length = 32 + (0 + 16)) := by
  constructor
  · exact handshake_message_sizes.2.1 (NoiseConfig.new 1) 2 ⟨[5], [6], pubOf 3, pubOf 4⟩
      none (List.replicate 47 0) (by simp)
  · have := handshake_message_sizes.2.2 (NoiseConfig.new 1) 2 ⟨[5], [6], pubOf 3, pubOf 4⟩
      none (List.replicate 48 0) (by simp)
    simpa using this

/-- C10: `initiate_connection` performs no maximum-size check on its
payload: for every payload it returns (totally) a message of exactly
`handshake_init_msg_len` bytes; whenever that exceeds
`MAX_SIZE_NOISE_MSG` the peer's `parse_client_init_message` rejects it
with `ReceivedMsgTooLarge`. -/
theorem initiator_no_size_check (a e : Nat) (prologue remote : Bytes)
    (payload : Option Bytes) :
    ((initiate_connection (NoiseConfig.new a) e prologue remote payload).2).length
      = handshake_init_msg_len ((payload.map List.length).getD 0) ∧
    (MAX_SIZE_NOISE_MSG
        < ((initiate_connection (NoiseConfig.new a) e prologue remote payload).2).length →
     ∀ (cfg2 : NoiseConfig) (prologue2 : Bytes),
       parse_client_init_message cfg2 prologue2
           (initiate_connection (NoiseConfig.new a) e prologue remote payload).2
         = .error .ReceivedMsgTooLarge) := by
  refine ⟨length_init_msg a e prologue remote payload, ?_⟩
  intro hbig cfg2 prologue2
  unfold parse_client_init_message
  rw [if_pos (by omega)]

/-- Witness for C10: a 65,440-byte payload yields a 65,536-byte first
message, which the responder rejects. -/
theorem initiator_no_size_check_witness :
    MAX_SIZE_NOISE_MSG
      < ((initiate_connection (NoiseConfig.new 1) 2 [] (pubOf 3)
          (some (List.replicate 65440 0))).2).length ∧
    parse_client_init_message (NoiseConfig.new 4) []
        (initiate_connection (NoiseConfig.new 1) 2 [] (pubOf 3)
          (some (List.replicate 65440 0))).2
      = .error .ReceivedMsgTooLarge := by
  have hlen := (initiator_no_size_check 1 2 [] (pubOf 3)
    (some (List.replicate 65440 0))).1
  have hpl : ((some (List.replicate 65440 (0 : Nat))).map List.length).getD 0 = 65440 := by
    rw [Option.map_some', Option.getD_some, List.length_replicate]
  have hgt : MAX_SIZE_NOISE_MSG
      < ((initiate_connection (NoiseConfig.new 1) 2 [] (pubOf 3)
          (some (List.replicate 65440 0))).2).length := by
    rw [hlen, hpl]
    simp only [handshake_init_msg_len, encrypted_len, AES_GCM_TAGLEN, MAX_SIZE_NOISE_MSG]
    omega
  exact ⟨hgt, (initiator_no_size_check 1 2 [] (pubOf 3)
    (some (List.replicate 65440 0))).2 hgt (NoiseConfig.new 4) []⟩

/-! ### Negotiation theorems -/

/-- Soundness of the negotiation loop: an `Ok (v, c)` answer means `v`
is one of the iterated local versions, the remote side also has `v`,
and `c` is their non-empty bitwise intersection. -/
lemma go_ok_sound (other : HandshakeMsg) (l : List (MessagingProtocolVersion × ProtocolIdSet))
    (v : MessagingProtocolVersion) (c : ProtocolIdSet)
    (h : perform_handshake_go other l = .ok (v, c)) :
    ∃ ours theirs, (v, ours) ∈ l ∧ mapGet other.supported_protocols v = some theirs ∧
      c = ours.intersect theirs ∧ c.is_empty = false := by
  induction l with
  | nil => simp [perform_handshake_go] at h
  | cons kv rest ih =>
    obtain ⟨v0, ours0⟩ := kv
    unfold perform_handshake_go at h
    split at h
    · rename_i theirs0 hg
      split_ifs at h with hemp
      · obtain ⟨ours, theirs, hm, hget, hc, he⟩ := ih h
        exact ⟨ours, theirs, List.mem_cons_of_mem _ hm, hget, hc, he⟩
      · simp only [Except.ok.injEq, Prod.mk.injEq] at h
        have hv : v0 = v := by cases v0; cases v; rfl
        have hc : ours0.intersect theirs0 = c := h.2
        subst hv
        subst hc
        exact ⟨ours0, theirs0, List.mem_cons_self _ _, hg, rfl, by simpa using hemp⟩
    · rename_i hg
      obtain ⟨ours, theirs, hm, hget, hc, he⟩ := ih h
      exact ⟨ours, theirs, List.mem_cons_of_mem _ hm, hget, hc, he⟩

/-- Completeness of the negotiation loop: a `noCommonProtocols` answer
means every iterated local version that the remote side also supports
has an empty intersection. -/
lemma go_error_complete (other : HandshakeMsg)
    (l : List (MessagingProtocolVersion × ProtocolIdSet))
    (h : perform_handshake_go other l = .error .noCommonProtocols) :
    ∀ v ours theirs, (v, ours) ∈ l → mapGet other.supported_protocols v = some theirs →
      (ours.intersect theirs).is_empty = true := by
  induction l with
  | nil => intro v ours theirs hm; simp at hm
  | cons kv rest ih =>
    obtain ⟨v0, ours0⟩ := kv
    unfold perform_handshake_go at h
    split at h
    · rename_i theirs0 hg
      split_ifs at h with hemp
      · intro v ours theirs hm hget
        rcases List.mem_cons.mp hm with heq | hmem
        · have hv : v = v0 := congrArg Prod.fst heq
          have ho : ours = ours0 := congrArg Prod.snd heq
          subst hv
          subst ho
          rw [hg] at hget
          have ht : theirs0 = theirs := by injection hget
          rw [← ht]
          exact hemp
        · exact ih h v ours theirs hmem hget
    · rename_i hg
      intro v ours theirs hm hget
      rcases List.mem_cons.mp hm with heq | hmem
      · have hv : v = v0 := congrArg Prod.fst heq
        rw [hv, hg] at hget
        exact Option.noConfusion hget
      · exact ih h v ours theirs hmem hget

/-- The negotiation loop returns either an `Ok` pair or the
`noCommonProtocols` error — never a chain or network error. -/
lemma go_ok_or_error (other : HandshakeMsg)
    (l : List (MessagingProtocolVersion × ProtocolIdSet)) :
    (∃ v c, perform_handshake_go other l = .ok (v, c)) ∨
    perform_handshake_go other l = .error .noCommonProtocols := by
  induction l with
  | nil => right; rfl
  | cons kv rest ih =>
    obtain ⟨v0, ours0⟩ := kv
    unfold perform_handshake_go
    cases hg : mapGet other.supported_protocols v0 with
    | none =>
      simp only [hg]
      exact ih
    | some theirs0 =>
      simp only [hg]
      by_cases hemp : (ours0.intersect theirs0).is_empty = true
      · rw [if_pos hemp]
        exact ih
      · rw [if_neg hemp]
        exact Or.inl ⟨v0, ours0.intersect theirs0, rfl⟩

/-- Completeness of the negotiation loop: when every iterated local
version that the remote side also supports has an empty intersection,
the loop returns the `noCommonProtocols` error. -/
lemma go_all_empty_error (other : HandshakeMsg)
    (l : List (MessagingProtocolVersion × ProtocolIdSet))
    (h : ∀ v ours theirs, (v, ours) ∈ l →
      mapGet other.supported_protocols v = some theirs →
      (ours.intersect theirs).is_empty = true) :
    perform_handshake_go other l = .error .noCommonProtocols := by
  induction l with
  | nil => rfl
  | cons kv rest ih =>
    obtain ⟨v0, ours0⟩ := kv
    unfold perform_handshake_go
    cases hg : mapGet other.supported_protocols v0 with
    | none =>
      simp only [hg]
      exact ih (fun v ours theirs hm hget => h v ours theirs (List.mem_cons_of_mem _ hm) hget)
    | some theirs0 =>
      have hemp := h v0 ours0 theirs0 (List.mem_cons_self _ _) hg
      simp only [hg]
      rw [if_pos hemp]
      exact ih (fun v ours theirs hm hget => h v ours theirs (List.mem_cons_of_mem _ hm) hget)

/-- C5: `perform_handshake` fails with `invalidChainId` when the chain
ids differ and with `invalidNetworkId` when the network ids differ; on
success it returns a version supported by both sides together with the
non-empty bitwise intersection of the two protocol sets; it returns
`noCommonProtocols` exactly when (with matching ids) every version
present on both sides has an empty intersection — in particular, when
the ids match and no version yields a non-empty intersection it does
fail with the no-common-protocols error, and when some shared version
has a non-empty intersection it does return an `Ok` pair with a
non-empty protocol set; and on the claim's concrete instance — local
`{V1: {StorageServiceRpc, ConsensusRpcBcs}}` against remote
`{V1: {StorageServiceRpc}}` with matching chain and network ids — it
returns `(V1, {StorageServiceRpc})`. -/
theorem negotiation_correct (l r : HandshakeMsg) :
    (l.chain_id ≠ r.chain_id → perform_handshake l r = .error .invalidChainId) ∧
    (l.chain_id = r.chain_id → l.network_id ≠ r.network_id →
       perform_handshake l r = .error .invalidNetworkId) ∧
    (∀ v c, perform_handshake l r = .ok (v, c) →
       l.chain_id = r.chain_id ∧ l.network_id = r.network_id ∧
       ∃ ours theirs, (v, ours) ∈ l.supported_protocols ∧
         mapGet r.supported_protocols v = some theirs ∧
         c = ours.intersect theirs ∧ c.is_empty = false) ∧
    (perform_handshake l r = .error .noCommonProtocols →
       ∀ v ours theirs, (v, ours) ∈ l.supported_protocols →
         mapGet r.supported_protocols v = some theirs →
         (ours.intersect theirs).is_empty = true) ∧
    (l.chain_id = r.chain_id → l.network_id = r.network_id →
       (∀ v ours theirs, (v, ours) ∈ l.supported_protocols →
         mapGet r.supported_protocols v = some theirs →
         (ours.intersect theirs).is_empty = true) →
       perform_handshake l r = .error .noCommonProtocols) ∧
    (l.chain_id = r.chain_id → l.network_id = r.network_id →
       ∀ v ours theirs, (v, ours) ∈ l.supported_protocols →
         mapGet r.supported_protocols v = some theirs →
         (ours.intersect theirs).is_empty = false →
         ∃ v2 c, perform_handshake l r = .ok (v2, c) ∧ c.is_empty = false) ∧
    perform_handshake
        ⟨[(.V1, (ProtocolIdSet.empty.insert .StorageServiceRpc).insert .ConsensusRpcBcs)],
         ⟨1⟩, .Public⟩
        ⟨[(.V1, ProtocolIdSet.empty.insert .StorageServiceRpc)], ⟨1⟩, .Public⟩
      = .ok (.V1, ProtocolIdSet.empty.insert .StorageServiceRpc) := by
  refine ⟨?_, ?_, ?_, ?_, ?_, ?_, by decide⟩
  · intro hch
    unfold perform_handshake
    rw [if_pos hch]
  · intro hch hnet
    unfold perform_handshake
    rw [if_neg (by simp [hch]), if_pos hnet]
  · intro v c h
    unfold perform_handshake at h
    by_cases hch : l.chain_id = r.chain_id
    · by_cases hnet : l.network_id = r.network_id
      · rw [if_neg (by simp [hch]), if_neg (by simp [hnet])] at h
        obtain ⟨ours, theirs, hm, hget, hc, he⟩ := go_ok_sound r _ v c h
        exact ⟨hch, hnet, ours, theirs, List.mem_reverse.mp hm, hget, hc, he⟩
      · rw [if_neg (by simp [hch]), if_pos hnet] at h
        simp at h
    · rw [if_pos hch] at h
      simp at h
  · intro h v ours theirs hm hget
    unfold perform_handshake at h
    by_cases hch : l.chain_id = r.chain_id
    · by_cases hnet : l.network_id = r.network_id
      · rw [if_neg (by simp [hch]), if_neg (by simp [hnet])] at h
        exact go_error_complete r _ h v ours theirs (List.mem_reverse.mpr hm) hget
      · rw [if_neg (by simp [hch]), if_pos hnet] at h
        simp at h
    · rw [if_pos hch] at h
      simp at h
  · intro hch hnet hall
    unfold perform_handshake
    rw [if_neg (by simp [hch]), if_neg (by simp [hnet])]
    exact go_all_empty_error r _
      (fun v ours theirs hm hget => hall v ours theirs (List.mem_reverse.mp hm) hget)
  · intro hch hnet v ours theirs hm hget hne
    unfold perform_handshake
    rw [if_neg (by simp [hch]), if_neg (by simp [hnet])]
    rcases go_ok_or_error r l.supported_protocols.reverse with ⟨v2, c, hok⟩ | herr
    · refine ⟨v2, c, hok, ?_⟩
      obtain ⟨_, _, _, _, _, he⟩ := go_ok_sound r _ v2 c hok
      exact he
    · exfalso
      have hall := go_error_complete r _ herr v ours theirs (List.mem_reverse.mpr hm) hget
      rw [hall] at hne
      exact Bool.noConfusion hne

/-- Witness for C5: chain-id mismatch at concrete messages is rejected,
and the concrete negotiation instance from the claim succeeds. -/
theorem negotiation_correct_witness :
    perform_handshake
        ⟨[(.V1, ProtocolIdSet.empty.insert .StorageServiceRpc)], ⟨1⟩, .Public⟩
        ⟨[(.V1, ProtocolIdSet.empty.insert .StorageServiceRpc)], ⟨2⟩, .Public⟩
      = .error .invalidChainId :=
  (negotiation_correct
    ⟨[(.V1, ProtocolIdSet.empty.insert .StorageServiceRpc)], ⟨1⟩, .Public⟩
    ⟨[(.V1, ProtocolIdSet.empty.insert .StorageServiceRpc)], ⟨2⟩, .Public⟩).1
    (by decide)

/-! ### ProtocolIdSet bitset lemmas -/

/-- The membership test `byte &&& (1 <<< k) != 0` is the `k`-th bit. -/
lemma and_one_shift_decide (x k : Nat) :
    decide (x &&& (1 <<< k) ≠ 0) = x.testBit k := by
  rw [Nat.one_shiftLeft, Nat.and_two_pow]
  cases ht : x.testBit k
  · simp
  · simp [(Nat.two_pow_pos k).ne']

/-- `contains` reads exactly bit `toIdx` of the byte vector (reading 0
past the end). -/
lemma contains_eq_testBit (s : ProtocolIdSet) (p : ProtocolId) :
    s.contains p = (s.vec.getD (p.toIdx / 8) 0).testBit (p.toIdx % 8) := by
  unfold ProtocolIdSet.contains
  split_ifs with hb
  · exact and_one_shift_decide _ _
  · rw [List.getD_eq_default _ _ (le_of_not_lt hb), Nat.zero_testBit]

lemma length_padVec (v : Bytes) (b : Nat) :
    (padVec v b).length = max v.length (b + 1) := by
  unfold padVec
  split_ifs with hl <;> simp <;> omega

/-- Padding with zero bytes does not change any `getD _ 0` read. -/
lemma getD_padVec (v : Bytes) (b j : Nat) :
    (padVec v b).getD j 0 = v.getD j 0 := by
  unfold padVec
  split_ifs with hl
  · by_cases hj : j < v.length
    · rw [List.getD_append _ _ _ _ hj]
    · rw [List.getD_eq_default v _ (le_of_not_lt hj)]
      by_cases hj2 : j < v.length + (b + 1 - v.length)
      · rw [List.getD_append_right _ _ _ _ (le_of_not_lt hj)]
        simp [List.getD_eq_getElem?_getD, List.getElem?_getD_replicate_default_eq]
      · rw [List.getD_eq_default _ _ (by simp; omega)]
  · rfl

/-- `insert` resizes the vector lazily to fit the inserted bit. -/
lemma length_insert (s : ProtocolIdSet) (p : ProtocolId) :
    ((s.insert p).vec).length = max s.vec.length (p.toIdx / 8 + 1) := by
  simp [ProtocolIdSet.insert, length_padVec]

/-- The ordinal map of `ProtocolId` is injective. -/
lemma toIdx_inj : ∀ p q : ProtocolId, p.toIdx = q.toIdx → p = q := by decide

/-- `insert p` sets exactly bit `toIdx p`: membership of `q` after the
insert holds iff `q = p` or `q` was already a member. -/
lemma contains_insert (s : ProtocolIdSet) (p q : ProtocolId) :
    (s.insert p).contains q = (decide (q = p) || s.contains q) := by
  rw [contains_eq_testBit, contains_eq_testBit]
  by_cases hb : q.toIdx / 8 = p.toIdx / 8
  · rw [hb]
    have hblen : p.toIdx / 8
        < ((padVec s.vec (p.toIdx / 8)).set (p.toIdx / 8)
            ((padVec s.vec (p.toIdx / 8)).getD (p.toIdx / 8) 0
              ||| (1 <<< (p.toIdx % 8)))).length := by
      rw [List.length_set, length_padVec]; omega
    simp only [ProtocolIdSet.insert]
    rw [List.getD_eq_getElem _ 0 hblen, List.getElem_set_self]
    rw [getD_padVec, Nat.testBit_or, Nat.one_shiftLeft, Nat.testBit_two_pow]
    have hiff : (p.toIdx % 8 = q.toIdx % 8) ↔ (q = p) := by
      constructor
      · intro hm
        exact toIdx_inj q p (by omega)
      · intro he; rw [he]
    rw [decide_eq_decide.mpr hiff, Bool.or_comm]
  · have hne : ((s.insert p).vec).getD (q.toIdx / 8) 0
        = (padVec s.vec (p.toIdx / 8)).getD (q.toIdx / 8) 0 := by
      simp only [ProtocolIdSet.insert]
      simp [List.getD_eq_getElem?_getD,
        List.getElem?_set_ne (fun h => hb h.symm)]
    rw [hne, getD_padVec]
    have hqp : decide (q = p) = false := by
      simp only [decide_eq_false_iff_not]
      intro he
      exact hb (by rw [he])
    rw [hqp, Bool.false_or]

/-- `intersect` is bytewise AND truncated to the shorter vector, which
agrees with zero-padding: membership in the intersection is exactly
membership in both operands. -/
lemma contains_intersect (a b : ProtocolIdSet) (p : ProtocolId) :
    (a.intersect b).contains p = (a.contains p && b.contains p) := by
  rw [contains_eq_testBit, contains_eq_testBit, contains_eq_testBit]
  simp only [ProtocolIdSet.intersect]
  by_cases hj : p.toIdx / 8 < min a.vec.length b.vec.length
  · have hA : p.toIdx / 8 < a.vec.length := by omega
    have hB : p.toIdx / 8 < b.vec.length := by omega
    rw [List.getD_eq_getElem _ 0 (by simp [List.length_zipWith]; omega),
      List.getElem_zipWith, Nat.testBit_and,
      List.getD_eq_getElem _ 0 hA, List.getD_eq_getElem _ 0 hB]
  · rw [List.getD_eq_default _ _ (by simp [List.length_zipWith]; omega), Nat.zero_testBit]
    rcases Nat.lt_or_ge (p.toIdx / 8) a.vec.length with hA | hA
    · have hB : b.vec.length ≤ p.toIdx / 8 := by omega
      rw [List.getD_eq_default _ _ hB, Nat.zero_testBit, Bool.and_false]
    · rw [List.getD_eq_default _ _ hA, Nat.zero_testBit, Bool.false_and]

/-- `is_empty` is true iff every byte of the vector is zero. -/
lemma is_empty_iff (s : ProtocolIdSet) : s.is_empty = true ↔ ∀ x ∈ s.vec, x = 0 := by
  simp [ProtocolIdSet.is_empty, List.all_eq_true]

/-- An `is_empty` set contains no `ProtocolId`. -/
lemma is_empty_no_contains (s : ProtocolIdSet) (h : s.is_empty = true) (p : ProtocolId) :
    s.contains p = false := by
  rw [contains_eq_testBit]
  have h0 : s.vec.getD (p.toIdx / 8) 0 = 0 := by
    by_cases hlt : p.toIdx / 8 < s.vec.length
    · rw [List.getD_eq_getElem _ 0 hlt]
      exact (is_empty_iff s).mp h _ (List.getElem_mem hlt)
    · exact List.getD_eq_default _ _ (le_of_not_lt hlt)
  rw [h0, Nat.zero_testBit]

/-- C8 (amended): `insert p` sets exactly bit `toIdx p`, resizing the
vector lazily to fit; intersection membership is conjunction of
memberships (truncating to the shorter vector equals zero-padding);
`is_empty` is true iff every byte of the vector is zero, and an
`is_empty` set contains no `ProtocolId`.  (The converse of the last
implication fails: a vector with a nonzero byte outside the
`ProtocolId` ordinal range contains no `ProtocolId` but is not
`is_empty` — see the counterexample theorem.) -/
theorem protocol_id_set_semantics (s a b : ProtocolIdSet) (p q : ProtocolId) :
    ((s.insert p).contains q = (decide (q = p) || s.contains q)) ∧
    ((s.insert p).vec.length = max s.vec.length (p.toIdx / 8 + 1)) ∧
    ((a.intersect b).contains p = (a.contains p && b.contains p)) ∧
    (a.is_empty = true ↔ ∀ x ∈ a.vec, x = 0) ∧
    (a.is_empty = true → a.contains p = false) :=
  ⟨contains_insert s p q, length_insert s p, contains_intersect a b p, is_empty_iff a,
   fun h => is_empty_no_contains a h p⟩

/-- Counterexample for C8 as stated: the set with byte vector
`[0,0,0,0,1]` (bit 32 set, an ordinal no `ProtocolId` has) contains no
`ProtocolId`, yet `is_empty` is false — so "`is_empty` is true iff no
`ProtocolId` is contained" fails. -/
theorem protocol_id_set_is_empty_counterexample :
    ¬ ((ProtocolIdSet.mk [0, 0, 0, 0, 1]).is_empty = true ↔
       ∀ p : ProtocolId, (ProtocolIdSet.mk [0, 0, 0, 0, 1]).contains p = false) := by
  decide

/-- Witness for C8 at concrete inputs: inserting `StorageServiceRpc`
into the empty set makes exactly it a member, and an all-zero vector
contains nothing. -/
theorem protocol_id_set_semantics_witness :
    ((ProtocolIdSet.empty.insert .StorageServiceRpc).contains .ConsensusRpcBcs
      = (decide (ProtocolId.ConsensusRpcBcs = ProtocolId.StorageServiceRpc)
         || ProtocolIdSet.empty.contains .ConsensusRpcBcs)) ∧
    ((ProtocolIdSet.mk [0, 0]).contains .MempoolRpc = false) :=
  ⟨(protocol_id_set_semantics ProtocolIdSet.empty (ProtocolIdSet.mk [0, 0])
      (ProtocolIdSet.mk [1]) .StorageServiceRpc .ConsensusRpcBcs).1,
   (protocol_id_set_semantics ProtocolIdSet.empty (ProtocolIdSet.mk [0, 0])
      (ProtocolIdSet.mk [1]) .MempoolRpc .ConsensusRpcBcs).2.2.2.2 (by decide)⟩

/-! ### Handshake round-trip (C1) -/

/-- First 32 bytes of a message starting with a public key. -/
lemma take32_msg (e : Nat) (s1 s2 : Bytes) : ((pubOf e ++ s1) ++ s2).take 32 = pubOf e := by
  rw [List.append_assoc]
  have h : (32 : Nat) = (pubOf e).length := by simp
  rw [h, List.take_left]

/-- The middle 48-byte block of the three-part init message. -/
lemma extract_mid (x y z : Bytes) (hx : x.length = 32) (hy : y.length = 48) :
    (((x ++ y) ++ z).drop 32).take 48 = y := by
  rw [List.append_assoc, ← hx, List.drop_left, ← hy, List.take_left]

/-- The trailing block of the three-part init message. -/
lemma extract_tail (x y z : Bytes) (hx : x.length = 32) (hy : y.length = 48) :
    ((x ++ y) ++ z).drop 80 = z := by
  have h : (x ++ y).length = 80 := by simp [hx, hy]
  rw [← h, List.drop_left]

/-- The remainder of a two-part response message. -/
lemma drop32_msg (e : Nat) (rest : Bytes) : (pubOf e ++ rest).drop 32 = rest := by
  have h : (32 : Nat) = (pubOf e).length := by simp
  rw [h, List.drop_left]

/-- Parsing the initiator's first message at the responder recovers the
initiator's static public key and payload, and leaves the responder
with the same transcript hash and chaining key as the initiator. -/
lemma parse_init (a b eA : Nat) (prologue : Bytes) (pA : Option Bytes)
    (hA : (pA.getD []).length + 96 ≤ 65535) :
    parse_client_init_message (NoiseConfig.new b) prologue
        (initiate_connection (NoiseConfig.new a) eA prologue (pubOf b) pA).2
      = .ok (pubOf a,
          ⟨(initiate_connection (NoiseConfig.new a) eA prologue (pubOf b) pA).1.h,
           (initiate_connection (NoiseConfig.new a) eA prologue (pubOf b) pA).1.ck,
           pubOf a, pubOf eA⟩,
          pA.getD []) := by
  simp only [initiate_connection, NoiseConfig.new]
  rw [dh_comm eA b, dh_comm a b]
  unfold parse_client_init_message
  dsimp only
  have hlen : (((pubOf eA
        ++ aeadSeal (mix_key PROTOCOL_NAME (dh b (pubOf eA))).2 zeroNonce
            (mix_hash (mix_hash (mix_hash PROTOCOL_NAME prologue) (pubOf b)) (pubOf eA))
            (pubOf a))
        ++ aeadSeal (mix_key (mix_key PROTOCOL_NAME (dh b (pubOf eA))).1 (dh b (pubOf a))).2
            zeroNonce
            (mix_hash (mix_hash (mix_hash (mix_hash PROTOCOL_NAME prologue) (pubOf b)) (pubOf eA))
              (aeadSeal (mix_key PROTOCOL_NAME (dh b (pubOf eA))).2 zeroNonce
                (mix_hash (mix_hash (mix_hash PROTOCOL_NAME prologue) (pubOf b)) (pubOf eA))
                (pubOf a)))
            (pA.getD [])).length) = 96 + (pA.getD []).length := by
    simp
    omega
  rw [if_neg (by rw [hlen]; simp only [MAX_SIZE_NOISE_MSG]; omega),
    if_neg (by rw [hlen]; omega),
    if_neg (by rw [hlen]; simp only [AES_GCM_TAGLEN]; omega)]
  simp only [show (32 : Nat) + AES_GCM_TAGLEN = 48 from rfl,
    show (32 : Nat) + (32 + AES_GCM_TAGLEN) = 80 from rfl]
  rw [take32_msg, extract_mid _ _ _ (by simp) (by simp),
    extract_tail _ _ _ (by simp) (by simp)]
  rw [aeadOpen_aeadSeal]
  simp only []
  rw [if_neg (by simp)]
  rw [aeadOpen_aeadSeal]

/-- First 32 bytes of a two-part response message. -/
lemma take_pub (e : Nat) (rest : Bytes) : (pubOf e ++ rest).take 32 = pubOf e := by
  have h : (32 : Nat) = (pubOf e).length := by simp
  rw [h, List.take_left]

/-- Finalising against a well-formed responder message decrypts the
responder payload and derives the initiator session (write = k1,
read = k2) from the final chaining key. -/
lemma finalize_of_seal (a eA eB : Nat) (H CK rsV : Bytes) (p : Bytes)
    (hp : p.length + 48 ≤ 65535) :
    finalize_connection (NoiseConfig.new a) ⟨H, CK, eA, rsV⟩
        (pubOf eB ++ aeadSeal (mix_key (mix_key CK (dh eA (pubOf eB))).1 (dh a (pubOf eB))).2
          zeroNonce (mix_hash H (pubOf eB)) p)
      = .ok (p, NoiseSession.new
          (hkdf_split (mix_key (mix_key CK (dh eA (pubOf eB))).1 (dh a (pubOf eB))).1 none).1
          (hkdf_split (mix_key (mix_key CK (dh eA (pubOf eB))).1 (dh a (pubOf eB))).1 none).2
          rsV) := by
  unfold finalize_connection
  simp only [NoiseConfig.new]
  have hlen : (pubOf eB
      ++ aeadSeal (mix_key (mix_key CK (dh eA (pubOf eB))).1 (dh a (pubOf eB))).2
          zeroNonce (mix_hash H (pubOf eB)) p).length = 48 + p.length := by
    simp
    omega
  rw [if_neg (by rw [hlen]; simp only [MAX_SIZE_NOISE_MSG]; omega),
    if_neg (by rw [hlen]; omega)]
  rw [take_pub, drop32_msg]
  rw [aeadOpen_aeadSeal]

/-- Mirrored sessions round-trip one transport message: a write on one
side produces a tag whose framed ciphertext the other side reads back
to the original plaintext. -/
lemma write_read_roundtrip (sA sB : NoiseSession) (m : Bytes)
    (hk : sB.read_key = sA.write_key) (hn : sB.read_nonce = sA.write_nonce)
    (hvA : sA.valid = true) (hvB : sB.valid = true)
    (hm : m.length ≤ MAX_SIZE_NOISE_MSG - AES_GCM_TAGLEN) (hw : sA.write_nonce ≠ U64_MAX) :
    (write_message_in_place sA m).result
        = .ok (aeadTag sA.write_key (transportNonce sA.write_nonce) [] m) ∧
    (read_message_in_place sB
        ((write_message_in_place sA m).buffer
          ++ aeadTag sA.write_key (transportNonce sA.write_nonce) [] m)).result = .ok m := by
  rw [write_ok_char sA m hvA hm hw]
  refine ⟨rfl, ?_⟩
  show (read_message_in_place sB
      (m ++ aeadTag sA.write_key (transportNonce sA.write_nonce) [] m)).result = .ok m
  have hlen : (m ++ aeadTag sA.write_key (transportNonce sA.write_nonce) [] m).length
      = m.length + 16 := by simp
  unfold read_message_in_place
  rw [if_neg (by simp [hvB]),
    if_neg (by rw [hlen]; simp only [MAX_SIZE_NOISE_MSG, AES_GCM_TAGLEN] at hm ⊢; omega),
    if_neg (by rw [hlen]; simp only [AES_GCM_TAGLEN]; omega)]
  rw [hk, hn]
  rw [show m ++ aeadTag sA.write_key (transportNonce sA.write_nonce) [] m
      = aeadSeal sA.write_key (transportNonce sA.write_nonce) [] m from rfl]
  rw [aeadOpen_aeadSeal]
  dsimp only
  rw [if_neg hw]
  dsimp only
  congr 1
  rw [show (aeadSeal sA.write_key (transportNonce sA.write_nonce) [] m).length
      = m.length + 16 from by simp]
  rw [show m.length + 16 - AES_GCM_TAGLEN = m.length from by
    simp only [AES_GCM_TAGLEN]; omega]
  rw [show aeadSeal sA.write_key (transportNonce sA.write_nonce) [] m
      = m ++ aeadTag sA.write_key (transportNonce sA.write_nonce) [] m from rfl]
  have h32 : (m.length : Nat) = m.length := rfl
  rw [show m.length = (m : Bytes).length from rfl, List.take_left]

/-- C1: handshake round-trip correctness.  For all static keys `a`,
`b`, ephemerals `eA`, `eB`, prologue and payloads (of admissible
sizes), the full IK exchange — `initiate_connection` at A toward B's
static key, `parse_client_init_message` and `respond_to_client` at B,
`finalize_connection` at A — succeeds, recovers both payloads, and
yields mirrored sessions derived from the same final chaining key:
A gets write = k1 / read = k2 and B gets write = k2 / read = k1, so
A's write key equals B's read key and vice versa, and a message sealed
by `write_message_in_place` on either session is recovered exactly by
`read_message_in_place` on the other. -/
theorem noise_handshake_roundtrip (a b eA eB : Nat) (prologue : Bytes)
    (pA pB : Option Bytes)
    (hA : (pA.getD []).length + 96 ≤ 65535)
    (hB : (pB.getD []).length + 48 ≤ 65535)
    (m1 m2 : Bytes)
    (hm1 : m1.length ≤ MAX_SIZE_NOISE_MSG - AES_GCM_TAGLEN)
    (hm2 : m2.length ≤ MAX_SIZE_NOISE_MSG - AES_GCM_TAGLEN) :
    ∃ (stR : ResponderHandshakeState) (resp : Bytes) (sessA sessB : NoiseSession)
      (ckF : Bytes),
      parse_client_init_message (NoiseConfig.new b) prologue
          (initiate_connection (NoiseConfig.new a) eA prologue (pubOf b) pA).2
        = .ok (pubOf a, stR, pA.getD []) ∧
      respond_to_client (NoiseConfig.new b) eB stR pB
          (List.replicate (handshake_resp_msg_len ((pB.map List.length).getD 0)) 0)
        = .ok (resp, sessB) ∧
      finalize_connection (NoiseConfig.new a)
          (initiate_connection (NoiseConfig.new a) eA prologue (pubOf b) pA).1 resp
        = .ok (pB.getD [], sessA) ∧
      sessA = NoiseSession.new (hkdf_split ckF none).1 (hkdf_split ckF none).2 (pubOf b) ∧
      sessB = NoiseSession.new (hkdf_split ckF none).2 (hkdf_split ckF none).1 (pubOf a) ∧
      sessA.write_key = sessB.read_key ∧
      sessB.write_key = sessA.read_key ∧
      ((write_message_in_place sessA m1).result
          = .ok (aeadTag sessA.write_key (transportNonce 0) [] m1) ∧
        (read_message_in_place sessB
            ((write_message_in_place sessA m1).buffer
              ++ aeadTag sessA.write_key (transportNonce 0) [] m1)).result = .ok m1) ∧
      ((write_message_in_place sessB m2).result
          = .ok (aeadTag sessB.write_key (transportNonce 0) [] m2) ∧
        (read_message_in_place sessA
            ((write_message_in_place sessB m2).buffer
              ++ aeadTag sessB.write_key (transportNonce 0) [] m2)).result = .ok m2) := by
  have hparse := parse_init a b eA prologue pA hA
  have hbuf : handshake_resp_msg_len ((pB.map List.length).getD 0)
      ≤ (List.replicate (handshake_resp_msg_len ((pB.map List.length).getD 0)) 0).length := by
    simp
  have hrespond := respond_ok_char (NoiseConfig.new b) eB
    ⟨(initiate_connection (NoiseConfig.new a) eA prologue (pubOf b) pA).1.h,
     (initiate_connection (NoiseConfig.new a) eA prologue (pubOf b) pA).1.ck,
     pubOf a, pubOf eA⟩ pB
    (List.replicate (handshake_resp_msg_len ((pB.map List.length).getD 0)) 0) hbuf
  dsimp only at hrespond
  have hdrop : (List.replicate (handshake_resp_msg_len ((pB.map List.length).getD 0)) 0).drop
      (handshake_resp_msg_len ((pB.map List.length).getD 0)) = [] :=
    List.drop_eq_nil_of_le (by simp)
  rw [hdrop, List.append_nil] at hrespond
  rw [dh_comm eB eA, dh_comm eB a] at hrespond
  have hfin := finalize_of_seal a eA eB
    (initiate_connection (NoiseConfig.new a) eA prologue (pubOf b) pA).1.h
    (initiate_connection (NoiseConfig.new a) eA prologue (pubOf b) pA).1.ck
    (pubOf b) (pB.getD []) hB
  have hSTeta : (⟨(initiate_connection (NoiseConfig.new a) eA prologue (pubOf b) pA).1.h,
      (initiate_connection (NoiseConfig.new a) eA prologue (pubOf b) pA).1.ck,
      eA, pubOf b⟩ : InitiatorHandshakeState)
      = (initiate_connection (NoiseConfig.new a) eA prologue (pubOf b) pA).1 := rfl
  rw [hSTeta] at hfin
  refine ⟨⟨(initiate_connection (NoiseConfig.new a) eA prologue (pubOf b) pA).1.h,
      (initiate_connection (NoiseConfig.new a) eA prologue (pubOf b) pA).1.ck,
      pubOf a, pubOf eA⟩,
    pubOf eB ++ aeadSeal
      (mix_key (mix_key (initiate_connection (NoiseConfig.new a) eA prologue
          (pubOf b) pA).1.ck (dh eA (pubOf eB))).1 (dh a (pubOf eB))).2
      zeroNonce
      (mix_hash (initiate_connection (NoiseConfig.new a) eA prologue (pubOf b) pA).1.h
        (pubOf eB))
      (pB.getD []),
    NoiseSession.new
      (hkdf_split (mix_key (mix_key (initiate_connection (NoiseConfig.new a) eA prologue
          (pubOf b) pA).1.ck (dh eA (pubOf eB))).1 (dh a (pubOf eB))).1 none).1
      (hkdf_split (mix_key (mix_key (initiate_connection (NoiseConfig.new a) eA prologue
          (pubOf b) pA).1.ck (dh eA (pubOf eB))).1 (dh a (pubOf eB))).1 none).2
      (pubOf b),
    NoiseSession.new
      (hkdf_split (mix_key (mix_key (initiate_connection (NoiseConfig.new a) eA prologue
          (pubOf b) pA).1.ck (dh eA (pubOf eB))).1 (dh a (pubOf eB))).1 none).2
      (hkdf_split (mix_key (mix_key (initiate_connection (NoiseConfig.new a) eA prologue
          (pubOf b) pA).1.ck (dh eA (pubOf eB))).1 (dh a (pubOf eB))).1 none).1
      (pubOf a),
    (mix_key (mix_key (initiate_connection (NoiseConfig.new a) eA prologue
        (pubOf b) pA).1.ck (dh eA (pubOf eB))).1 (dh a (pubOf eB))).1,
    hparse, hrespond, hfin, rfl, rfl, rfl, rfl, ?_, ?_⟩
  · exact write_read_roundtrip _ _ m1 rfl rfl rfl rfl hm1 (by simp [U64_MAX, NoiseSession.new])
  · exact write_read_roundtrip _ _ m2 rfl rfl rfl rfl hm2 (by simp [U64_MAX, NoiseSession.new])

/-- Witness for C1 at concrete keys, ephemerals, prologue, payloads and
transport messages. -/
theorem noise_handshake_roundtrip_witness :
    ∃ (stR : ResponderHandshakeState) (resp : Bytes) (sessA sessB : NoiseSession)
      (ckF : Bytes),
      parse_client_init_message (NoiseConfig.new 3) [9]
          (initiate_connection (NoiseConfig.new 2) 5 [9] (pubOf 3) (some [1])).2
        = .ok (pubOf 2, stR, [1]) ∧
      respond_to_client (NoiseConfig.new 3) 7 stR (some [2, 3])
          (List.replicate (handshake_resp_msg_len 2) 0)
        = .ok (resp, sessB) ∧
      finalize_connection (NoiseConfig.new 2)
          (initiate_connection (NoiseConfig.new 2) 5 [9] (pubOf 3) (some [1])).1 resp
        = .ok ([2, 3], sessA) ∧
      sessA = NoiseSession.new (hkdf_split ckF none).1 (hkdf_split ckF none).2 (pubOf 3) ∧
      sessB = NoiseSession.new (hkdf_split ckF none).2 (hkdf_split ckF none).1 (pubOf 2) ∧
      sessA.write_key = sessB.read_key ∧
      sessB.write_key = sessA.read_key ∧
      ((write_message_in_place sessA [4]).result
          = .ok (aeadTag sessA.write_key (transportNonce 0) [] [4]) ∧
        (read_message_in_place sessB ((write_message_in_place sessA [4]).buffer
            ++ aeadTag sessA.write_key (transportNonce 0) [] [4])).result = .ok [4]) ∧
      ((write_message_in_place sessB [5, 6]).result
          = .ok (aeadTag sessB.write_key (transportNonce 0) [] [5, 6]) ∧
        (read_message_in_place sessA ((write_message_in_place sessB [5, 6]).buffer
            ++ aeadTag sessB.write_key (transportNonce 0) [] [5, 6])).result = .ok [5, 6]) :=
  noise_handshake_roundtrip 2 3 5 7 [9] (some [1]) (some [2, 3]) (by decide) (by decide)
    [4] [5, 6] (by decide) (by decide)

end Zap
